import Mathlib

/-!
Verification development for the iterman cursor library (src/list.rs,
src/error.rs).  The Rust code is shallowly embedded: each cursor struct
becomes a Lean structure, the atomic counters become plain `Nat` fields,
and every stateful method becomes a pure function returning its result
together with the updated state.  `usize` values are modelled as `Nat`
(the code never subtracts or overflows them).  A Rust panic (out-of-bounds
vector indexing) is modelled by an `Option`-valued step returning `none`.
-/

namespace IterMan

/-- Embeds `IterManError` from src/error.rs.  Field order follows the
source: `MemoryOutOfBounds { line_index, max_len }` and
`StreamOutOfBounds { line_index, bytes_offset, max_len }`. -/
inductive IterManError where
  | MemoryOutOfBounds (line_index max_len : Nat)
  | StreamOutOfBounds (line_index bytes_offset max_len : Nat)
  deriving DecidableEq, Repr

/-! ## MemoryList (spec name: MemoryCursor) -/

/-- Embeds `MemoryList<T>` (src/list.rs lines 18-22).  The
`Arc<Mutex<Vec<T>>>` storage becomes a `List T`; the `AtomicUsize`
position becomes a `Nat`. -/
structure MemoryList (T : Type) where
  vec : List T
  round_robin : Bool
  line_index : Nat
  deriving DecidableEq, Repr

/-- Embeds `MemoryList::new` (lines 25-31). -/
def MemoryList.new (v : List T) : MemoryList T :=
  { vec := v, round_robin := false, line_index := 0 }

/-- Embeds `MemoryList::new_round_robin` (lines 34-39). -/
def MemoryList.new_round_robin (v : List T) : MemoryList T :=
  { vec := v, round_robin := true, line_index := 0 }

/-- Embeds `MemoryList::seek` (lines 54-64): succeed and store the target
iff it is below the storage length, otherwise return `MemoryOutOfBounds`
and leave the state untouched. -/
def MemoryList.seek (s : MemoryList T) (line_index : Nat) :
    Except IterManError Nat × MemoryList T :=
  if line_index < s.vec.length then
    (Except.ok line_index, { s with line_index := line_index })
  else
    (Except.error (IterManError.MemoryOutOfBounds line_index s.vec.length), s)

/-- Embeds `MemoryList::with_seek_to` (lines 46-49): run `seek` and
discard its result (`unwrap_or_default`), keeping whatever state it left. -/
def MemoryList.with_seek_to (s : MemoryList T) (line_index : Nat) :
    MemoryList T :=
  (s.seek line_index).2

/-- Embeds `<MemoryList as ListLike>::iter` (lines 74-86): reset the
position to 0 when round-robin and at-or-past the end, then read and
post-increment if in bounds. -/
def MemoryList.iter (s : MemoryList T) : Option T × MemoryList T :=
  let s1 := if s.round_robin ∧ s.line_index ≥ s.vec.length then
    { s with line_index := 0 } else s
  match s1.vec[s1.line_index]? with
  | some v => (some v, { s1 with line_index := s1.line_index + 1 })
  | none => (none, s1)

/-- Runs `iter` `n` times, collecting the produced options. -/
def MemoryList.run : Nat → MemoryList T → List (Option T) × MemoryList T
  | 0, s => ([], s)
  | n + 1, s =>
    let (r, s1) := s.iter
    let (rs, s2) := MemoryList.run n s1
    (r :: rs, s2)

/-! ## BufferList (spec name: StreamCursor)

The `BufReader<T>` over a seekable byte source is embedded as a stream
state: the full byte content (a `List Char`; every content used by the
repository is ASCII, one byte per char) plus the current read position.
`read_line` and `Seek::seek` on this state are total in the model, as
they are for the in-memory `Cursor` readers the repository tests use. -/

/-- Embeds the seekable byte source behind the `BufReader`: its full
content and the current stream position. -/
structure StreamState where
  content : List Char
  pos : Nat
  deriving DecidableEq, Repr

/-- Takes one line from a character list: everything up to and including
the first newline, or the whole list when no newline remains (the
`BufRead::read_line` delimiter rule). -/
def takeLine : List Char → List Char
  | [] => []
  | c :: cs => if c = '\n' then [c] else c :: takeLine cs

/-- Embeds one `read_line` call on the stream: returns the chars read,
the byte count read, and the advanced stream. -/
def readLine (st : StreamState) : List Char × Nat × StreamState :=
  let line := takeLine (st.content.drop st.pos)
  (line, line.length, { st with pos := st.pos + line.length })

/-- Embeds Rust `str::trim`: strip leading and trailing whitespace. -/
def trimChars (l : List Char) : List Char :=
  ((l.dropWhile Char.isWhitespace).reverse.dropWhile Char.isWhitespace).reverse

/-- Embeds `BufferList<T>` (src/list.rs lines 107-112). -/
structure BufferList where
  stream : StreamState
  round_robin : Bool
  line_index : Nat
  bytes_offset : Nat
  deriving DecidableEq, Repr

/-- Embeds `BufferList::new` (lines 115-122); the fresh reader stands at
stream position 0. -/
def BufferList.new (content : List Char) : BufferList :=
  { stream := { content := content, pos := 0 }, round_robin := false,
    line_index := 0, bytes_offset := 0 }

/-- Embeds `BufferList::new_round_robin` (lines 125-130). -/
def BufferList.new_round_robin (content : List Char) : BufferList :=
  { BufferList.new content with round_robin := true }

/-- Embeds `BufferList::incr` (lines 144-147). -/
def BufferList.incr (s : BufferList) (bytes_read : Nat) : BufferList :=
  { s with line_index := s.line_index + 1,
           bytes_offset := s.bytes_offset + bytes_read }

/-- Embeds `BufferList::reset` (lines 150-153): zero both counters
without touching the stream. -/
def BufferList.reset (s : BufferList) : BufferList :=
  { s with line_index := 0, bytes_offset := 0 }

/-- Embeds `BufferList::seek` (lines 155-194).  The length probe
`seek(SeekFrom::End(0))` always succeeds on the modelled in-memory
stream and leaves the stream position at the end; the bounds check and
the final `seek(SeekFrom::Start(_))` follow the source order. -/
def BufferList.seek (s : BufferList) (line_index bytes_offset : Nat) :
    Except IterManError Nat × BufferList :=
  let stream_len := s.stream.content.length
  let s1 : BufferList := { s with stream := { s.stream with pos := stream_len } }
  if stream_len < bytes_offset then
    (Except.error
      (IterManError.StreamOutOfBounds line_index bytes_offset stream_len), s1)
  else
    (Except.ok bytes_offset,
      { s1 with stream := { s1.stream with pos := bytes_offset },
                line_index := line_index, bytes_offset := bytes_offset })

/-- Embeds `<BufferList as ListLike>::iter` (lines 208-247): read a line;
on 0 bytes, stop unless round-robin, in which case rewind the stream to
byte 0, reset the counters and retry exactly once, stopping if the retry
also reads 0 bytes. -/
def BufferList.iter (s : BufferList) : Option (List Char) × BufferList :=
  let (line, bytes_read, st1) := readLine s.stream
  match bytes_read with
  | 0 =>
    if ¬ s.round_robin then (none, { s with stream := st1 })
    else
      let st0 : StreamState := { st1 with pos := 0 }
      let s0 := BufferList.reset { s with stream := st0 }
      let (line2, bytes_read2, st2) := readLine st0
      match bytes_read2 with
      | 0 => (none, { s0 with stream := st2 })
      | n2 => (some (trimChars line2), BufferList.incr { s0 with stream := st2 } n2)
  | n => (some (trimChars line), BufferList.incr { s with stream := st1 } n)

/-- Embeds `BufferList::with_seek_to` (lines 138-141): run `seek`,
discard its result, keep the state it left. -/
def BufferList.with_seek_to (s : BufferList) (line_index bytes_offset : Nat) :
    BufferList :=
  (s.seek line_index bytes_offset).2

/-- Runs `BufferList.iter` `n` times, collecting the produced options. -/
def BufferList.run : Nat → BufferList → List (Option (List Char)) × BufferList
  | 0, s => ([], s)
  | n + 1, s =>
    let (r, s1) := s.iter
    let (rs, s2) := BufferList.run n s1
    (r :: rs, s2)

/-! ## MemoryArrayList (spec name: MemoryMultiplexCursor) -/

/-- Embeds `MemoryArrayList<T>` (src/list.rs lines 262-268). -/
structure MemoryArrayList (T : Type) where
  lists : List (List T)
  round_robin : Bool
  cur_list_index : Nat
  line_indexes : List Nat
  finished_count : Nat
  deriving DecidableEq, Repr

/-- Embeds `MemoryArrayList::new` (lines 281-289): one zeroed position
per sub-list, round-robin off. -/
def MemoryArrayList.new (mem_arr : List (List T)) : MemoryArrayList T :=
  { lists := mem_arr, round_robin := false, cur_list_index := 0,
    line_indexes := List.replicate mem_arr.length 0, finished_count := 0 }

/-- Embeds `MemoryArrayList::new_round_robin` (lines 301-306). -/
def MemoryArrayList.new_round_robin (mem_arr : List (List T)) :
    MemoryArrayList T :=
  { MemoryArrayList.new mem_arr with round_robin := true }

/-- Embeds `<MemoryArrayList as ListLike>::iter` (lines 323-354).  The
outer `Option` models a Rust panic: the source indexes
`line_indexes[cur_list_index]` (line 331) and then
`lists[cur_list_index]` (line 334) with panicking `Vec` indexing, so an
out-of-bounds access yields `none`.  In the exhausted-slot branch the
source increments `finished_count` (non-round-robin only), checks it
against the list count, and returns `None` either way — it never touches
`cur_list_index` there. -/
def MemoryArrayList.iter (s : MemoryArrayList T) :
    Option (Option T × MemoryArrayList T) :=
  let cur := if s.cur_list_index ≥ s.lists.length then 0 else s.cur_list_index
  let s := { s with cur_list_index := cur }
  match s.line_indexes[cur]? with
  | none => none
  | some cur_line =>
    match s.lists[cur]? with
    | none => none
    | some l =>
      if h : cur_line < l.length then
        let v := l.get ⟨cur_line, h⟩
        let li1 := cur_line + 1
        let li2 := if s.round_robin ∧ li1 ≥ l.length then 0 else li1
        some (some v, { s with line_indexes := s.line_indexes.set cur li2,
                               cur_list_index := cur + 1 })
      else
        if ¬ s.round_robin then
          let s1 := { s with finished_count := s.finished_count + 1 }
          if s1.finished_count ≥ s1.lists.length then some (none, s1)
          else some (none, s1)
        else
          some (none, s)

/-- Runs `MemoryArrayList.iter` `n` times; `none` when any step panics. -/
def MemoryArrayList.run :
    Nat → MemoryArrayList T → Option (List (Option T) × MemoryArrayList T)
  | 0, s => some ([], s)
  | n + 1, s =>
    match s.iter with
    | none => none
    | some (r, s1) =>
      match MemoryArrayList.run n s1 with
      | none => none
      | some (rs, s2) => some (r :: rs, s2)

/-- Counts the slots whose position has reached their length (the
"distinct exhausted slots" of the spec). -/
def MemoryArrayList.exhaustedCount (s : MemoryArrayList T) : Nat :=
  (s.line_indexes.zip s.lists).countP (fun p => p.2.length ≤ p.1)

/-- The stream content used by the repository's own buffer tests. -/
def sampleContent : List Char := ['1', '\n', '2', '\n', '3', '\n']

/-! ## Theorems -/

/-- C5: `MemoryList.seek i` on storage of length L succeeds and sets the
position to `i` iff `i < L`; on success the next `iter` returns the i-th
element and leaves the position accessor at `i + 1`; otherwise it fails
with `MemoryOutOfBounds i L` and leaves the state unchanged. -/
theorem memoryList_seek_spec {T : Type} (s : MemoryList T) (i : Nat) :
    (∀ h : i < s.vec.length,
      s.seek i = (Except.ok i, { s with line_index := i }) ∧
      ({ s with line_index := i } : MemoryList T).iter =
        (some (s.vec.get ⟨i, h⟩), { s with line_index := i + 1 })) ∧
    (s.vec.length ≤ i →
      s.seek i =
        (Except.error (IterManError.MemoryOutOfBounds i s.vec.length), s)) := by
  constructor
  · intro h
    refine ⟨by simp [MemoryList.seek, h], ?_⟩
    have hn : ¬ (s.round_robin = true ∧ s.vec.length ≤ i) := by
      rintro ⟨-, hle⟩; exact absurd h (Nat.not_lt.mpr hle)
    simp [MemoryList.iter, hn, List.getElem?_eq_getElem h]
  · intro h
    simp [MemoryList.seek, Nat.not_lt.mpr h]

/-- C5 witness: both branches of `memoryList_seek_spec` at the concrete
cursor over `[2, 3, 4]` (indices 1 and 6). -/
theorem memoryList_seek_spec_witness :
    (MemoryList.new [2, 3, 4]).seek 1 =
      (Except.ok 1, { MemoryList.new [2, 3, 4] with line_index := 1 }) ∧
    (MemoryList.new [2, 3, 4]).seek 6 =
      (Except.error (IterManError.MemoryOutOfBounds 6 3),
        MemoryList.new [2, 3, 4]) :=
  ⟨((memoryList_seek_spec (MemoryList.new [2, 3, 4]) 1).1 (by decide)).1,
    (memoryList_seek_spec (MemoryList.new [2, 3, 4]) 6).2 (by decide)⟩

/-- C7 counterexample: a round-robin `MemoryList` over `[0]` reports
position 1 = storage length at rest, right after one `iter` call — the
claim says the accessor never reports the storage length at rest. -/
theorem memoryList_rest_len_cex :
    ((MemoryList.new_round_robin [0]).iter).2.line_index =
      ([0] : List Nat).length := by decide

/-- C7 amended: the round-robin reset of the position happens lazily, at
the start of the next `iter` call once the position is at or past the
length, before that call's read: such a call produces element 0 and
leaves the position at 1.  Between calls the accessor may report the
storage length. -/
theorem memoryList_lazy_reset {T : Type} (s : MemoryList T) (v : T)
    (h1 : s.round_robin = true) (h2 : s.vec.length ≤ s.line_index)
    (h3 : s.vec[0]? = some v) :
    s.iter = (some v, { s with line_index := 1 }) := by
  simp [MemoryList.iter, h1, h2, h3]

/-- C7 witness: `memoryList_lazy_reset` at the rest state reached by a
full pass over `[5]`. -/
theorem memoryList_lazy_reset_witness :
    ({ vec := [5], round_robin := true, line_index := 1 } :
        MemoryList Nat).iter =
      (some 5,
        { vec := [5], round_robin := true, line_index := 1 }) :=
  memoryList_lazy_reset
    { vec := [5], round_robin := true, line_index := 1 } 5
    rfl (by decide) (by decide)

/-- C8: a round-robin `BufferList` over the empty stream returns
end-of-sequence from every `iter` call, with the state unchanged — the
retry after the rewind reads 0 bytes again, so no value (in particular
no empty string) is ever produced, for any number of requests. -/
theorem bufferList_round_robin_empty :
    (BufferList.new_round_robin ([] : List Char)).iter =
      (none, BufferList.new_round_robin []) ∧
    ∀ n, BufferList.run n (BufferList.new_round_robin ([] : List Char)) =
      (List.replicate n none, BufferList.new_round_robin []) := by
  have h0 : (BufferList.new_round_robin ([] : List Char)).iter =
      (none, BufferList.new_round_robin []) := by decide
  refine ⟨h0, ?_⟩
  intro n
  induction n with
  | zero => rfl
  | succ n ih => simp [BufferList.run, h0, ih, List.replicate]

/-- C9: `MemoryArrayList.iter` on the multiplexer built over the empty
collection panics (modelled as `none`): the per-slot position vector is
empty, so after the wrap check stores slot 0 the indexing
`line_indexes[0]` is out of bounds instead of returning
end-of-sequence. -/
theorem memoryArrayList_empty_panics :
    (MemoryArrayList.new ([] : List (List Nat))).iter = none ∧
    (MemoryArrayList.new ([] : List (List Nat))).line_indexes = [] := by
  decide

/-- C4: `BufferList.seek line off` fails with `StreamOutOfBounds`
carrying `max_len = L` iff `off > L` (L the stream length, always
determinable in the model), and otherwise repositions the stream to
`off`, stores `line` and `off` into the counters and returns `off`; on
the repository's `"1\n2\n3\n"` stream, `seek 2 4` succeeds, the next
line produced is `"3"` and the accessors then report 3 and 6, while
`seek 7 50` fails reporting `max_len = 6`. -/
theorem bufferList_seek_spec (bl : BufferList) (line off : Nat) :
    (bl.stream.content.length < off →
      bl.seek line off =
        (Except.error (IterManError.StreamOutOfBounds line off
            bl.stream.content.length),
          { bl with stream :=
              { bl.stream with pos := bl.stream.content.length } })) ∧
    (off ≤ bl.stream.content.length →
      bl.seek line off =
        (Except.ok off,
          { bl with stream := { bl.stream with pos := off },
                    line_index := line, bytes_offset := off })) ∧
    ((BufferList.new sampleContent).seek 2 4).1 = Except.ok 4 ∧
    (((BufferList.new sampleContent).seek 2 4).2.iter).1 = some ['3'] ∧
    (((BufferList.new sampleContent).seek 2 4).2.iter).2.line_index = 3 ∧
    (((BufferList.new sampleContent).seek 2 4).2.iter).2.bytes_offset = 6 ∧
    ((BufferList.new sampleContent).seek 7 50).1 =
      Except.error (IterManError.StreamOutOfBounds 7 50 6) := by
  refine ⟨?_, ?_, rfl, rfl, rfl, rfl, rfl⟩
  · intro h
    simp [BufferList.seek, h]
  · intro h
    simp [BufferList.seek, Nat.not_lt.mpr h]

/-- C4 witness: both bound branches of `bufferList_seek_spec` at the
concrete `"1\n2\n3\n"` stream (offsets 4 and 50). -/
theorem bufferList_seek_spec_witness :
    (BufferList.new sampleContent).seek 2 4 =
      (Except.ok 4,
        { BufferList.new sampleContent with
            stream := { content := sampleContent, pos := 4 },
            line_index := 2, bytes_offset := 4 }) ∧
    (BufferList.new sampleContent).seek 7 50 =
      (Except.error (IterManError.StreamOutOfBounds 7 50 6),
        { BufferList.new sampleContent with
            stream := { content := sampleContent, pos := 6 } }) :=
  ⟨(bufferList_seek_spec (BufferList.new sampleContent) 2 4).2.1 (by decide),
    (bufferList_seek_spec (BufferList.new sampleContent) 7 50).1 (by decide)⟩

/-- C10: when `BufferList.seek` fails its bounds validation the counters
are untouched, but the length probe has already moved the stream to its
end; a following `iter` on a non-round-robin cursor therefore returns
end-of-sequence (with no further state change) even though the counters
still hold their pre-seek values. -/
theorem bufferList_failed_seek_frame (bl : BufferList) (line off : Nat)
    (hrr : bl.round_robin = false)
    (hoff : bl.stream.content.length < off) :
    (bl.seek line off).1 =
      Except.error (IterManError.StreamOutOfBounds line off
        bl.stream.content.length) ∧
    (bl.seek line off).2.line_index = bl.line_index ∧
    (bl.seek line off).2.bytes_offset = bl.bytes_offset ∧
    (bl.seek line off).2.stream.pos = bl.stream.content.length ∧
    (bl.seek line off).2.iter = (none, (bl.seek line off).2) := by
  have hs : bl.seek line off =
      (Except.error (IterManError.StreamOutOfBounds line off
          bl.stream.content.length),
        { bl with stream :=
            { bl.stream with pos := bl.stream.content.length } }) := by
    simp [BufferList.seek, hoff]
  refine ⟨by rw [hs], by rw [hs], by rw [hs], by rw [hs], ?_⟩
  rw [hs]
  simp [BufferList.iter, readLine, List.drop_length, takeLine, hrr]

/-- C10 witness: `bufferList_failed_seek_frame` on the fresh
`"1\n2\n3\n"` cursor at the repository's out-of-bounds input (7, 50). -/
theorem bufferList_failed_seek_frame_witness :
    ((BufferList.new sampleContent).seek 7 50).1 =
      Except.error (IterManError.StreamOutOfBounds 7 50 6) ∧
    ((BufferList.new sampleContent).seek 7 50).2.line_index = 0 ∧
    ((BufferList.new sampleContent).seek 7 50).2.iter =
      (none, ((BufferList.new sampleContent).seek 7 50).2) := by
  have h := bufferList_failed_seek_frame (BufferList.new sampleContent) 7 50
    rfl (by decide)
  exact ⟨h.1, h.2.1, h.2.2.2.2⟩

/-- C6 counterexample: a failing `with_seek_to` on a non-round-robin
`BufferList` does not behave like a fresh cursor — its first `iter`
returns end-of-sequence, while the fresh cursor produces `"1"`. -/
theorem bufferList_with_seek_to_cex :
    (((BufferList.new sampleContent).with_seek_to 7 50).iter).1 = none ∧
    ((BufferList.new sampleContent).iter).1 = some ['1'] ∧
    (none : Option (List Char)) ≠ some ['1'] := by decide

/-- C6 amended: a failing `with_seek_to` is discarded silently, and on a
`MemoryList` the cursor is exactly the fresh cursor; on a `BufferList`
the counters stay at their defaults but the stream has been left at
end-of-stream by the length probe, so the subsequent output can differ
from a fresh cursor — in particular the first `iter` of a
non-round-robin cursor returns end-of-sequence. -/
theorem with_seek_to_failed_seek {T : Type} (v : List T) (i : Nat)
    (c : List Char) (line off : Nat) :
    (v.length ≤ i →
      (MemoryList.new v).with_seek_to i = MemoryList.new v) ∧
    (c.length < off →
      (BufferList.new c).with_seek_to line off =
        { BufferList.new c with stream := { content := c, pos := c.length } } ∧
      ((BufferList.new c).with_seek_to line off).iter.1 = none) := by
  constructor
  · intro h
    simp [MemoryList.with_seek_to, MemoryList.seek, MemoryList.new,
      Nat.not_lt.mpr h]
  · intro h
    have hw : (BufferList.new c).with_seek_to line off =
        { BufferList.new c with
            stream := { content := c, pos := c.length } } := by
      simp [BufferList.with_seek_to, BufferList.seek, BufferList.new, h]
    refine ⟨hw, ?_⟩
    rw [hw]
    simp [BufferList.iter, readLine, BufferList.new, List.drop_length, takeLine]

/-- C6 witness: `with_seek_to_failed_seek` at the memory cursor over
`[2, 3, 4]` with target 6 and the `"1\n2\n3\n"` stream with target
(7, 50). -/
theorem with_seek_to_failed_seek_witness :
    (MemoryList.new [2, 3, 4]).with_seek_to 6 = MemoryList.new [2, 3, 4] ∧
    ((BufferList.new sampleContent).with_seek_to 7 50).iter.1 = none := by
  have h := with_seek_to_failed_seek [2, 3, 4] 6 sampleContent 7 50
  exact ⟨h.1 (by decide), (h.2 (by decide)).2⟩

/-- C1 counterexample: over `[[], [1]]` the first call finds slot 0
exhausted; the claim demands `active_slot = (0 + 1) % 2 = 1` afterwards,
but the code leaves `cur_list_index` at 0 (the rotation stalls on the
exhausted slot). -/
theorem memoryArrayList_stalled_slot_cex :
    (MemoryArrayList.new [([] : List Nat), [1]]).iter =
      some (none,
        { lists := [[], [1]], round_robin := false, cur_list_index := 0,
          line_indexes := [0, 0], finished_count := 1 }) ∧
    (0 + 1) % 2 = 1 ∧ (0 : Nat) ≠ 1 := by decide

/-- C1 amended: `cur_list_index` is first normalized (wrapped to 0 when
at or past N), then advanced by one only when the call produces a value;
on an exhausted-slot turn it stays at the normalized value, so the
rotation stalls on that slot instead of moving on. -/
theorem memoryArrayList_active_slot_advance {T : Type}
    (s : MemoryArrayList T) (r : Option T) (s1 : MemoryArrayList T)
    (h : s.iter = some (r, s1)) :
    s1.cur_list_index =
      (if s.cur_list_index ≥ s.lists.length then 0 else s.cur_list_index) +
        (if r.isSome then 1 else 0) := by
  simp only [MemoryArrayList.iter] at h
  split at h
  · exact Option.noConfusion h
  · split at h
    · exact Option.noConfusion h
    · split at h
      · cases h; simp
      · split at h
        · split at h
          · cases h; simp
          · cases h; simp
        · cases h; simp

/-- C1 witness: `memoryArrayList_active_slot_advance` at the singleton
multiplexer `[[1]]`, whose first call produces 1 and moves the slot
index from 0 to 1. -/
theorem memoryArrayList_active_slot_advance_witness :
    ({ lists := [[1]], round_robin := false, cur_list_index := 1,
       line_indexes := [1], finished_count := 0 } :
        MemoryArrayList Nat).cur_list_index =
      (if (MemoryArrayList.new [[1]]).cur_list_index ≥
          (MemoryArrayList.new [[1]]).lists.length then 0
        else (MemoryArrayList.new [[1]]).cur_list_index) +
        (if (some 1 : Option Nat).isSome then 1 else 0) :=
  memoryArrayList_active_slot_advance (MemoryArrayList.new [[1]])
    (some 1)
    { lists := [[1]], round_robin := false, cur_list_index := 1,
      line_indexes := [1], finished_count := 0 }
    (by decide)

/-- C2 counterexample: over `[[], [1]]` two calls both hit the stalled
exhausted slot 0, driving `finished_count` to 2 while only one distinct
slot is exhausted — so `finished_count` exceeds the number of distinct
exhausted slots (and the multiplexer dies before ever producing the 1 in
slot 1). -/
theorem memoryArrayList_finished_overcount_cex :
    MemoryArrayList.run 2 (MemoryArrayList.new [([] : List Nat), [1]]) =
      some ([none, none],
        { lists := [[], [1]], round_robin := false, cur_list_index := 0,
          line_indexes := [0, 0], finished_count := 2 }) ∧
    ({ lists := [[], [1]], round_robin := false, cur_list_index := 0,
       line_indexes := [0, 0], finished_count := 2 } :
        MemoryArrayList Nat).exhaustedCount = 1 ∧
    ¬ (2 : Nat) ≤ 1 := by decide

/-- C2 amended: in non-round-robin mode every call that finds its active
slot exhausted increments `finished_count` by one while leaving the slot
positions and the (normalized) active slot unchanged — so the same
exhausted slot is recounted on each subsequent call, and
`finished_count` is a per-call tally that can exceed the number of
distinct exhausted slots. -/
theorem memoryArrayList_finished_count_per_call {T : Type}
    (s s1 : MemoryArrayList T)
    (hrr : s.round_robin = false)
    (h : s.iter = some (none, s1)) :
    s1.finished_count = s.finished_count + 1 ∧
    s1.cur_list_index =
      (if s.cur_list_index ≥ s.lists.length then 0 else s.cur_list_index) ∧
    s1.line_indexes = s.line_indexes := by
  simp only [MemoryArrayList.iter] at h
  split at h
  · exact Option.noConfusion h
  · split at h
    · exact Option.noConfusion h
    · split at h
      · simp at h
      · split at h
        · split at h
          · cases h; simp
          · cases h; simp
        · simp_all

/-- C2 witness: `memoryArrayList_finished_count_per_call` at the first
call on the multiplexer over `[[], [1]]`. -/
theorem memoryArrayList_finished_count_per_call_witness :
    ({ lists := [[], [1]], round_robin := false, cur_list_index := 0,
       line_indexes := [0, 0], finished_count := 1 } :
        MemoryArrayList Nat).finished_count =
      (MemoryArrayList.new [([] : List Nat), [1]]).finished_count + 1 :=
  (memoryArrayList_finished_count_per_call
    (MemoryArrayList.new [([] : List Nat), [1]])
    { lists := [[], [1]], round_robin := false, cur_list_index := 0,
      line_indexes := [0, 0], finished_count := 1 }
    rfl (by decide)).1

/-- The state of the `[[1,2,3],[4,5,6],[7,8,9]]` multiplexer after the
nine producing calls: every slot position sits at 3, the slot index at
`c`, the finished tally at `fc`. -/
def drained3 (c fc : Nat) : MemoryArrayList Nat :=
  { lists := [[1, 2, 3], [4, 5, 6], [7, 8, 9]], round_robin := false,
    cur_list_index := c, line_indexes := [3, 3, 3], finished_count := fc }

theorem drained3_iter0 (fc : Nat) :
    (drained3 0 fc).iter = some (none, drained3 0 (fc + 1)) := by
  simp [MemoryArrayList.iter, drained3]

theorem drained3_iter3 (fc : Nat) :
    (drained3 3 fc).iter = some (none, drained3 0 (fc + 1)) := by
  simp [MemoryArrayList.iter, drained3]

theorem drained3_run0 (k fc : Nat) :
    MemoryArrayList.run k (drained3 0 fc) =
      some (List.replicate k none, drained3 0 (fc + k)) := by
  induction k generalizing fc with
  | zero => simp [MemoryArrayList.run]
  | succ k ih =>
    have ha : fc + 1 + k = fc + (k + 1) := by omega
    simp [MemoryArrayList.run, drained3_iter0, ih, List.replicate, ha]

theorem MemoryArrayList.run_add {T : Type} (m n : Nat)
    (s : MemoryArrayList T) :
    MemoryArrayList.run (m + n) s =
      (MemoryArrayList.run m s).bind (fun p =>
        (MemoryArrayList.run n p.2).map (fun q => (p.1 ++ q.1, q.2))) := by
  induction m generalizing s with
  | zero =>
    cases hq : MemoryArrayList.run n s with
    | none => simp [MemoryArrayList.run, hq]
    | some q => simp [MemoryArrayList.run, hq]
  | succ m ih =>
    have hs : m + 1 + n = (m + n) + 1 := by omega
    rw [hs]
    cases hi : s.iter with
    | none => simp [MemoryArrayList.run, hi]
    | some p =>
      obtain ⟨r, s1⟩ := p
      cases hm : MemoryArrayList.run m s1 with
      | none => simp [MemoryArrayList.run, hi, ih, hm]
      | some pm =>
        obtain ⟨rs, s2⟩ := pm
        cases hn : MemoryArrayList.run n s2 with
        | none => simp [MemoryArrayList.run, hi, ih, hm, hn]
        | some pn =>
          obtain ⟨rs2, s3⟩ := pn
          simp [MemoryArrayList.run, hi, ih, hm, hn]

/-- C3: on the non-round-robin multiplexer over
`[[1,2,3],[4,5,6],[7,8,9]]` the first nine calls produce exactly
1, 4, 7, 2, 5, 8, 3, 6, 9 in that order, and every call after the ninth
returns end-of-sequence, for any number of extra calls. -/
theorem memoryArrayList_drain_three_by_three (k : Nat) :
    (MemoryArrayList.run (9 + k)
        (MemoryArrayList.new [[1, 2, 3], [4, 5, 6], [7, 8, 9]])).map
        Prod.fst =
      some ([some 1, some 4, some 7, some 2, some 5, some 8, some 3,
        some 6, some 9] ++ List.replicate k none) := by
  have h9 : MemoryArrayList.run 9
      (MemoryArrayList.new [[1, 2, 3], [4, 5, 6], [7, 8, 9]]) =
      some ([some 1, some 4, some 7, some 2, some 5, some 8, some 3,
        some 6, some 9], drained3 3 0) := by decide
  rw [MemoryArrayList.run_add, h9]
  cases k with
  | zero => simp [MemoryArrayList.run]
  | succ k =>
    simp [MemoryArrayList.run, drained3_iter3, drained3_run0,
      List.replicate]

end IterMan
